import Mathlib

/-!
# k8s-demo: HTTP handler with a request-duration histogram

A shallow embedding of `Deployment/k8s-demo/app.js`.

* The request handler passed to `http.createServer` is embedded statement by
  statement as a state-passing function (`handlerSync`), followed by the
  promise continuation registered with `.then` (`settle`).
* The histogram object of the metrics library is not part of the repository;
  its registration, observation and timer operations are modelled from the
  specification (sections 3, 4.1, 4.2, 4.3) and are marked as such.
* JavaScript numbers that measure time (bucket bounds, elapsed seconds, sums)
  are rationals: rounding of floating point arithmetic is not modelled.
-/

namespace K8sDemo

/-! ## Data model -/

/-- A label value as the handler supplies it: `req.method` and `req.url` are
strings, `res.statusCode` is a number. -/
inductive LabelValue where
  | str (s : String)
  | num (n : Nat)
  deriving DecidableEq, Repr

/-- A label object such as `{ method: ..., route: ..., code: ... }`: its
properties in the order in which the object literal lists them. -/
abbrev Labels := List (String × LabelValue)

/-- The configuration object handed to `new prometheus.Histogram(...)`. -/
structure Descriptor where
  name : String
  help : String
  labelNames : List String
  buckets : List ℚ
  deriving DecidableEq

/-- The configuration object of `const httpRequestDurationMicroseconds`
(app.js, lines 7 to 12). -/
def httpRequestDurationConfig : Descriptor :=
  { name := "http_request_duration_seconds"
    help := "Duration of HTTP requests in microseconds"
    labelNames := ["method", "route", "code"]
    buckets := [1/10, 3/10, 1/2, 7/10, 1, 3, 5, 7, 10] }

/-- The state of one labelled histogram series (specification, section 3):
cumulative bucket counters parallel to the descriptor's bounds, the running
sum, and the observation count (which is also the implicit `+Inf` bucket). -/
structure SeriesState where
  buckets : List Nat
  sum : ℚ
  count : Nat
  deriving DecidableEq

/-- The part of an incoming request the handler reads. -/
structure Request where
  method : String
  url : String
  headers : List (String × String)
  deriving DecidableEq

/-- The part of Node's `http.ServerResponse` the handler writes: the status
code, the headers set so far, and the body once `end` has been called. -/
structure ServerResponse where
  statusCode : Nat
  headers : List (String × String)
  body : Option String
  deriving DecidableEq

/-- The response object as Node hands it to the handler: `statusCode` is 200 by
default, no header is set, and the response has not been ended. -/
def freshResponse : ServerResponse :=
  { statusCode := 200, headers := [], body := none }

/-- The effect of `res.setHeader(name, value)`: a previous value of the same header is
replaced. -/
def ServerResponse.setHeader (res : ServerResponse) (name value : String) : ServerResponse :=
  { res with headers := (name, value) :: res.headers.filter (fun h => h.1 ≠ name) }

/-- The effect of `res.statusCode = code`. -/
def ServerResponse.setStatusCode (res : ServerResponse) (code : Nat) : ServerResponse :=
  { res with statusCode := code }

/-- The effect of `res.end(data)`: the response is sent with body `data`. -/
def ServerResponse.endWith (res : ServerResponse) (data : String) : ServerResponse :=
  { res with body := some data }

/-- The value of a header of the response, if set. -/
def ServerResponse.getHeader (res : ServerResponse) (name : String) : Option String :=
  (res.headers.find? (fun h => h.1 = name)).map Prod.snd

/-! ## The metrics library, modelled from the specification -/

/-- Modelled from the spec: the failures of `register` (section 4.1, section 7);
the registry of the metrics library is not part of the repository. -/
inductive RegistryError where
  | InvalidDescriptor
  | DuplicateMetricName
  deriving DecidableEq, Repr

/-- Modelled from the spec: the failures of `observe` and `Timer.stop`
(sections 4.1, 4.2 and 7); the library raising them is not part of the
repository. -/
inductive ObserveError where
  | LabelCardinalityMismatch
  | NegativeObservation
  | TimerAlreadyStopped
  deriving DecidableEq, Repr

/-- All labelled series of one histogram, first observed first, each under its
key. -/
abbrev SeriesMap := List (Labels × SeriesState)

/-- A histogram object: its descriptor and the series observed so far. -/
structure Histogram where
  descriptor : Descriptor
  series : SeriesMap
  deriving DecidableEq

/-- A registry: the registered metrics in registration order. -/
abbrev Registry := List Histogram

/-- Strictly increasing sequence of rationals, as a boolean check. -/
def strictlyIncreasing : List ℚ → Bool
  | [] => true
  | [_] => true
  | a :: b :: rest => decide (a < b) && strictlyIncreasing (b :: rest)

/-- Modelled from the spec: the descriptor check of `register` (section 4.1 and
section 7), which the library performs outside the repository. A descriptor is
invalid when its name is empty or its buckets are empty, not strictly
increasing, or contain a non-positive value. -/
def validDescriptor (d : Descriptor) : Bool :=
  decide (d.name ≠ "") && !d.buckets.isEmpty && strictlyIncreasing d.buckets
    && d.buckets.all (fun b => decide (0 < b))

/-- Modelled from the spec: `register(descriptor)` of section 4.1 (the library
code is not part of the repository). An invalid descriptor fails with
`InvalidDescriptor`; a name that is already registered with a different shape
fails with `DuplicateMetricName`; a structurally identical one is accepted
idempotently; otherwise the metric is appended with no series. -/
def register (reg : Registry) (d : Descriptor) : Except RegistryError Registry :=
  if validDescriptor d then
    match reg.find? (fun h => h.descriptor.name = d.name) with
    | some h =>
      if h.descriptor.labelNames = d.labelNames ∧ h.descriptor.buckets = d.buckets then
        .ok reg
      else
        .error .DuplicateMetricName
    | none => .ok (reg ++ [{ descriptor := d, series := [] }])
  else
    .error .InvalidDescriptor

/-- Modelled from the spec: the label check of `observe` (section 4.1), not
part of the repository. The supplied label keys match the descriptor when
their number is the same and the two key sets include each other. -/
def labelsMatch (names : List String) (labels : Labels) : Bool :=
  labels.length == names.length
    && names.all (fun n => labels.any (fun l => l.1 == n))
    && labels.all (fun l => names.contains l.1)

/-- Modelled from the spec: the key of a series is its label-value tuple sorted
by label name (section 3, LabeledSeries), so that the order in which the
caller lists the labels does not matter. Names are compared as character
sequences, which is the order of strings. -/
def seriesKey (labels : Labels) : Labels :=
  labels.insertionSort (fun a b => a.1.data ≤ b.1.data)

/-- Modelled from the spec: a series on first use has all bucket, sum and count
state zeroed (section 4.1). -/
def zeroState (bounds : List ℚ) : SeriesState :=
  { buckets := bounds.map (fun _ => 0), sum := 0, count := 0 }

/-- Modelled from the spec: one histogram observation on one series (section
4.1): the value is added to the sum, the count is incremented, and every bucket
whose upper bound is at least the value is incremented. -/
def applyObservation (bounds : List ℚ) (s : SeriesState) (v : ℚ) : SeriesState :=
  { buckets := List.zipWith (fun b c => if v ≤ b then c + 1 else c) bounds s.buckets
    sum := s.sum + v
    count := s.count + 1 }

/-- Modelled from the spec: find the series of a key or create it lazily, and
apply the observation to it (section 4.1); a new series goes last. -/
def updateSeries (bounds : List ℚ) (key : Labels) (v : ℚ) : SeriesMap → SeriesMap
  | [] => [(key, applyObservation bounds (zeroState bounds) v)]
  | (k, s) :: rest =>
    if k = key then (k, applyObservation bounds s v) :: rest
    else (k, s) :: updateSeries bounds key v rest

/-- Modelled from the spec: `observe(handle, labelValues, value)` of section 4.1
for a histogram; the library code is not part of the repository. -/
def Histogram.observe (h : Histogram) (labels : Labels) (v : ℚ) :
    Except ObserveError Histogram :=
  if labelsMatch h.descriptor.labelNames labels then
    .ok { h with series := updateSeries h.descriptor.buckets (seriesKey labels) v h.series }
  else
    .error .LabelCardinalityMismatch

/-- Modelled from the spec: the Timer of section 3, a start instant; `stopped`
records that it has been consumed. -/
structure Timer where
  startInstant : ℚ
  stopped : Bool
  deriving DecidableEq

/-- Modelled from the spec: `Timer.start` of section 4.2 captures the current
clock reading and cannot fail. This is what `startTimer()` returns. -/
def Timer.start (now : ℚ) : Timer :=
  { startInstant := now, stopped := false }

/-- Modelled from the spec: the elapsed time of section 4.2, clamped to zero
when the clock went backwards. -/
def Timer.elapsed (t : Timer) (now : ℚ) : ℚ :=
  max 0 (now - t.startInstant)

/-- Modelled from the spec: `Timer.stop(timer, labelValues)` of section 4.2: a
second stop of the same timer fails with `TimerAlreadyStopped`, otherwise the
elapsed time is observed under the given labels. -/
def Timer.stop (t : Timer) (now : ℚ) (labels : Labels) (h : Histogram) :
    Except ObserveError (Timer × Histogram) :=
  if t.stopped then .error .TimerAlreadyStopped
  else
    match h.observe labels (t.elapsed now) with
    | .ok h' => .ok ({ t with stopped := true }, h')
    | .error e => .error e

/-- The histogram object `httpRequestDurationMicroseconds` as constructed at
start-up (app.js, lines 7 to 12): no series yet. -/
def httpRequestDurationMicroseconds : Histogram :=
  { descriptor := httpRequestDurationConfig, series := [] }

/-! ## The request handler -/

/-- How the promise returned by `prometheus.register.metrics()` settles: it
resolves with the rendered text or rejects with a reason. -/
inductive Settlement where
  | resolved (data : String)
  | rejected (reason : String)
  deriving DecidableEq

/-- What one run of the handler takes from its environment: the clock reading
when `startTimer()` runs, the clock reading when the function it returned is
called, the constant `prometheus.register.contentType`, and the settlement of
the promise returned by `prometheus.register.metrics()`. -/
structure Env where
  tStart : ℚ
  tStop : ℚ
  contentType : String
  render : Settlement

/-- The observable steps of one run of the handler, in program order. -/
inductive Event where
  | timerStart (timer : Timer)
  | setStatusCode (code : Nat)
  | setHeader (name value : String)
  | metricsCalled
  | thenAttached
  | responseEnd (data : String)
  | timerStop (timer : Timer) (labels : Labels)
  | timerStopThrew (e : ObserveError)
  | unhandledRejection (reason : String)
  deriving DecidableEq

/-- Whether an event is a timer start. -/
def Event.isTimerStart : Event → Bool
  | .timerStart _ => true
  | _ => false

/-- Whether an event is a timer stop that recorded an observation. -/
def Event.isTimerStop : Event → Bool
  | .timerStop _ _ => true
  | _ => false

/-- Whether an event ends the response. -/
def Event.isResponseEnd : Event → Bool
  | .responseEnd _ => true
  | _ => false

/-- The state after (part of) a run of the handler: the response object, the
histogram, the steps taken so far, whether a `.then` continuation is still
waiting for the promise to settle, and the exception thrown out of the
handler, if any. -/
structure HandlerState where
  res : ServerResponse
  histogram : Histogram
  trace : List Event
  pendingThen : Bool
  thrown : Option ObserveError

/-- The label object `{ method: req.method, route: req.url, code: res.statusCode }`
of app.js line 28. -/
def endLabels (req : Request) (res : ServerResponse) : Labels :=
  [("method", .str req.method), ("route", .str req.url), ("code", .num res.statusCode)]

/-- The synchronous body of the request handler (app.js, lines 14 to 29),
statement by statement. -/
def handlerSync (env : Env) (req : Request) (res : ServerResponse) (h : Histogram) :
    HandlerState :=
  -- const end = httpRequestDurationMicroseconds.startTimer();
  let timer := Timer.start env.tStart
  let trace := [Event.timerStart timer]
  let branch : ServerResponse × List Event × Bool :=
    if req.url = "/metrics" then
      -- res.setHeader('Content-Type', prometheus.register.contentType);
      let res := res.setHeader "Content-Type" env.contentType
      -- prometheus.register.metrics().then(data => { res.end(data); });
      (res, trace ++ [.setHeader "Content-Type" env.contentType, .metricsCalled, .thenAttached],
        true)
    else
      -- res.statusCode = 200;
      let res := res.setStatusCode 200
      -- res.setHeader('Content-Type', 'text/plain');
      let res := res.setHeader "Content-Type" "text/plain"
      -- res.end('Hello from Kubernetes!');
      let res := res.endWith "Hello from Kubernetes!"
      (res, trace ++ [.setStatusCode 200, .setHeader "Content-Type" "text/plain",
        .responseEnd "Hello from Kubernetes!"], false)
  -- end({ method: req.method, route: req.url, code: res.statusCode });
  let labels := endLabels req branch.1
  match timer.stop env.tStop labels h with
  | .ok (_, h') =>
    { res := branch.1, histogram := h', trace := branch.2.1 ++ [.timerStop timer labels],
      pendingThen := branch.2.2, thrown := none }
  | .error e =>
    { res := branch.1, histogram := h, trace := branch.2.1 ++ [.timerStopThrew e],
      pendingThen := branch.2.2, thrown := some e }

/-- The continuation `data => { res.end(data); }` attached with `.then`
(app.js, lines 19 to 21), run when the promise settles. Only a fulfilment
handler is attached: a rejection finds no handler and stays unhandled. -/
def settle (env : Env) (s : HandlerState) : HandlerState :=
  if s.pendingThen then
    match env.render with
    | .resolved data =>
      { s with res := s.res.endWith data, trace := s.trace ++ [.responseEnd data],
               pendingThen := false }
    | .rejected reason =>
      { s with trace := s.trace ++ [.unhandledRejection reason], pendingThen := false }
  else s

/-- One request handled to completion: the synchronous body, then the promise
continuation. -/
def handle (env : Env) (req : Request) (res : ServerResponse) (h : Histogram) : HandlerState :=
  settle env (handlerSync env req res h)

/-- The histogram after a sequence of requests, each handled on a fresh response
object. -/
def serve (h : Histogram) : List (Env × Request) → Histogram
  | [] => h
  | (env, req) :: rest => serve (handle env req freshResponse h).histogram rest

/-- The total number of observations a histogram holds, over all its series. -/
def Histogram.totalCount (h : Histogram) : Nat :=
  (h.series.map (fun p => p.2.count)).sum

/-- The state of the series of a key; a series not yet created counts as
zeroed. -/
def Histogram.lookup (h : Histogram) (key : Labels) : SeriesState :=
  match h.series.find? (fun p => p.1 = key) with
  | some p => p.2
  | none => zeroState h.descriptor.buckets

/-- Modelled from the spec: the bucket lines the exporter emits for one series
(sections 4.3 and 6), as pairs of bound and cumulative count: one line per
configured bound in the descriptor's order, then the `+Inf` line carrying the
series count. The exporter is not part of the repository. -/
def bucketLines (bounds : List ℚ) (s : SeriesState) : List (WithTop ℚ × Nat) :=
  (List.zip bounds s.buckets).map (fun p => ((p.1 : WithTop ℚ), p.2)) ++ [(⊤, s.count)]

/-- Every series holds one counter per configured bound. -/
def SeriesMap.WellFormed (bounds : List ℚ) (series : SeriesMap) : Prop :=
  ∀ p ∈ series, p.2.buckets.length = bounds.length

/-- The invariant of one series: one counter per bound, counters non-decreasing
along the bounds, and no counter above the series count. -/
def SeriesState.Cumulative (bounds : List ℚ) (s : SeriesState) : Prop :=
  s.buckets.length = bounds.length ∧ s.buckets.Pairwise (· ≤ ·) ∧ ∀ c ∈ s.buckets, c ≤ s.count

/-- The key under which a request handled on a fresh response is recorded. -/
def requestKey (req : Request) : Labels :=
  [("code", .num 200), ("method", .str req.method), ("route", .str req.url)]

/-- A clock and library environment used for concrete runs: the timer runs for
two fifths of a second, and the render resolves with a one-line exposition. -/
def sampleEnv : Env :=
  { tStart := 0, tStop := 2/5, contentType := "text/plain; version=0.0.4; charset=utf-8",
    render := .resolved "up 1" }

/-- The same environment with a render that rejects. -/
def failingEnv : Env :=
  { tStart := 0, tStop := 2/5, contentType := "text/plain; version=0.0.4; charset=utf-8",
    render := .rejected "render failed" }

/-- A request that is not a scrape. -/
def greetingRequest : Request :=
  { method := "POST", url := "/healthz?x=1", headers := [] }

/-- A scrape. -/
def scrapeRequest : Request :=
  { method := "GET", url := "/metrics", headers := [] }

/-- The series that `greetingRequest` leaves behind when it is the first request
and its timer measures two fifths of a second. -/
def sampleSeries : Labels × SeriesState :=
  (requestKey greetingRequest, { buckets := [0, 0, 1, 1, 1, 1, 1, 1, 1], sum := 2/5, count := 1 })

/-- Requests with method `GET` whose URLs differ only in the query string: the
`i`-th one asks for `/?` followed by `i` letters. -/
def queryRequests (n : Nat) : List (Env × Request) :=
  (List.range n).map (fun i => (sampleEnv, ⟨"GET", String.mk ('/' :: '?' :: List.replicate i 'x'), []⟩))

/-! ## Auxiliary facts -/

theorem seriesKey_endLabels (req : Request) (res : ServerResponse) :
    seriesKey (endLabels req res) =
      [("code", .num res.statusCode), ("method", .str req.method), ("route", .str req.url)] := by
  have h1 : ¬ ("method" : String).data ≤ ("code" : String).data := by decide
  have h2 : ("method" : String).data ≤ ("route" : String).data := by decide
  have h3 : ¬ ("route" : String).data ≤ ("code" : String).data := by decide
  simp only [seriesKey, endLabels, List.insertionSort, List.orderedInsert, if_neg h1, if_pos h2,
    if_neg h3, if_true, if_false]

theorem labelsMatch_endLabels (req : Request) (res : ServerResponse) :
    labelsMatch httpRequestDurationConfig.labelNames (endLabels req res) = true := by
  simp [labelsMatch, endLabels, httpRequestDurationConfig]

theorem getHeader_setHeader (res : ServerResponse) (name value : String) :
    (res.setHeader name value).getHeader name = some value := by
  simp [ServerResponse.setHeader, ServerResponse.getHeader]

/-- The response object and the pending continuation after the synchronous body
do not depend on the histogram or on the clock. -/
theorem handlerSync_res (env : Env) (req : Request) (res : ServerResponse) (h : Histogram) :
    (handlerSync env req res h).res =
        (if req.url = "/metrics" then res.setHeader "Content-Type" env.contentType
         else ((res.setStatusCode 200).setHeader "Content-Type" "text/plain").endWith
           "Hello from Kubernetes!") ∧
      (handlerSync env req res h).pendingThen = decide (req.url = "/metrics") := by
  unfold handlerSync
  by_cases hurl : req.url = "/metrics" <;> simp only [hurl, if_true, if_false] <;>
    split <;> simp

/-- Stopping a fresh timer on the program's histogram with the handler's label
object succeeds and updates the series of those labels. -/
theorem stop_endLabels (t0 now : ℚ) (req : Request) (res : ServerResponse) (series : SeriesMap) :
    (Timer.start t0).stop now (endLabels req res) ⟨httpRequestDurationConfig, series⟩ =
      .ok (⟨t0, true⟩, ⟨httpRequestDurationConfig,
        updateSeries httpRequestDurationConfig.buckets (seriesKey (endLabels req res))
          ((Timer.start t0).elapsed now) series⟩) := by
  simp [Timer.stop, Timer.start, Histogram.observe, labelsMatch_endLabels]

/-- The histogram, the exception slot and the steps of the synchronous body on
the program's histogram. -/
theorem handlerSync_histogram (env : Env) (req : Request) (res : ServerResponse)
    (series : SeriesMap) :
    (handlerSync env req res ⟨httpRequestDurationConfig, series⟩).histogram =
        ⟨httpRequestDurationConfig,
          updateSeries httpRequestDurationConfig.buckets
            (seriesKey (endLabels req
              (handlerSync env req res ⟨httpRequestDurationConfig, series⟩).res))
            ((Timer.start env.tStart).elapsed env.tStop) series⟩ ∧
      (handlerSync env req res ⟨httpRequestDurationConfig, series⟩).thrown = none ∧
      (handlerSync env req res ⟨httpRequestDurationConfig, series⟩).trace =
        Event.timerStart (Timer.start env.tStart) ::
          ((if req.url = "/metrics" then
              [.setHeader "Content-Type" env.contentType, .metricsCalled, .thenAttached]
            else
              [.setStatusCode 200, .setHeader "Content-Type" "text/plain",
                .responseEnd "Hello from Kubernetes!"]) ++
            [.timerStop (Timer.start env.tStart)
              (endLabels req
                (handlerSync env req res ⟨httpRequestDurationConfig, series⟩).res)]) := by
  unfold handlerSync
  by_cases hurl : req.url = "/metrics" <;> simp only [hurl, if_true, if_false] <;>
    rw [stop_endLabels] <;> simp

/-- The promise continuation touches neither the histogram nor the exception
slot, and only appends steps. -/
theorem settle_frame (env : Env) (s : HandlerState) :
    (settle env s).histogram = s.histogram ∧ (settle env s).thrown = s.thrown ∧
      (settle env s).res.statusCode = s.res.statusCode ∧
      ∃ extra, (settle env s).trace = s.trace ++ extra ∧
        extra.all (fun e => !e.isTimerStart && !e.isTimerStop) = true := by
  unfold settle
  by_cases hp : s.pendingThen = true
  · simp only [hp, if_true]
    cases env.render with
    | resolved d =>
      exact ⟨rfl, rfl, rfl, [.responseEnd d], rfl, by simp [Event.isTimerStart, Event.isTimerStop]⟩
    | rejected r =>
      exact ⟨rfl, rfl, rfl, [.unhandledRejection r], rfl,
        by simp [Event.isTimerStart, Event.isTimerStop]⟩
  · simp only [hp]
    exact ⟨rfl, rfl, rfl, [], by simp, by simp⟩

theorem sum_count_updateSeries (bounds : List ℚ) (key : Labels) (v : ℚ) (series : SeriesMap) :
    ((updateSeries bounds key v series).map (fun p => p.2.count)).sum =
      (series.map (fun p => p.2.count)).sum + 1 := by
  induction series with
  | nil => simp [updateSeries, applyObservation, zeroState]
  | cons p rest ih =>
    obtain ⟨k, s⟩ := p
    by_cases hk : k = key
    · simp [updateSeries, hk, applyObservation]; omega
    · simp [updateSeries, hk, ih]; omega

/-- One handled request adds one observation to the program's histogram and
leaves its descriptor alone. -/
theorem handle_histogram (env : Env) (req : Request) (res : ServerResponse)
    (series : SeriesMap) :
    (handle env req res ⟨httpRequestDurationConfig, series⟩).histogram =
      ⟨httpRequestDurationConfig,
        updateSeries httpRequestDurationConfig.buckets
          (seriesKey (endLabels req
            (handlerSync env req res ⟨httpRequestDurationConfig, series⟩).res))
          ((Timer.start env.tStart).elapsed env.tStop) series⟩ := by
  unfold handle
  rw [(settle_frame env _).1]
  exact (handlerSync_histogram env req res series).1

theorem serve_totalCount (reqs : List (Env × Request)) (series : SeriesMap) :
    (serve ⟨httpRequestDurationConfig, series⟩ reqs).descriptor = httpRequestDurationConfig ∧
      (serve ⟨httpRequestDurationConfig, series⟩ reqs).totalCount =
        (Histogram.totalCount ⟨httpRequestDurationConfig, series⟩) + reqs.length := by
  induction reqs generalizing series with
  | nil => simp [serve]
  | cons r rest ih =>
    obtain ⟨env, req⟩ := r
    simp only [serve, handle_histogram, List.length_cons]
    obtain ⟨h1, h2⟩ := ih (updateSeries httpRequestDurationConfig.buckets
      (seriesKey (endLabels req
        (handlerSync env req freshResponse ⟨httpRequestDurationConfig, series⟩).res))
      ((Timer.start env.tStart).elapsed env.tStop) series)
    refine ⟨h1, ?_⟩
    rw [h2]
    simp only [Histogram.totalCount, sum_count_updateSeries]
    omega

theorem find_updateSeries_self (bounds : List ℚ) (key : Labels) (v : ℚ) (series : SeriesMap) :
    (updateSeries bounds key v series).find? (fun p => p.1 = key) =
      some (key, applyObservation bounds
        (match series.find? (fun p => p.1 = key) with
          | some p => p.2
          | none => zeroState bounds) v) := by
  induction series with
  | nil => simp [updateSeries]
  | cons p rest ih =>
    obtain ⟨k, s⟩ := p
    by_cases hk : k = key
    · simp [updateSeries, hk]
    · simp [updateSeries, hk, List.find?_cons, ih]

theorem find_updateSeries_other (bounds : List ℚ) (key other : Labels) (v : ℚ)
    (series : SeriesMap) (hne : other ≠ key) :
    (updateSeries bounds key v series).find? (fun p => p.1 = other) =
      series.find? (fun p => p.1 = other) := by
  induction series with
  | nil => simp [updateSeries, List.find?_cons, Ne.symm hne]
  | cons p rest ih =>
    obtain ⟨k, s⟩ := p
    by_cases hk : k = key
    · have hko : ¬ k = other := fun h => hne (h.symm.trans hk)
      simp [updateSeries, hk, List.find?_cons, Ne.symm hne]
    · by_cases hko : k = other
      · subst hko
        simp [updateSeries, hk, List.find?_cons]
      · simp [updateSeries, hk, List.find?_cons, hko, ih]

/-- The series of the observed key after an update is the observation applied
to its state before. -/
theorem lookup_updateSeries_self (d : Descriptor) (key : Labels) (v : ℚ) (series : SeriesMap) :
    Histogram.lookup ⟨d, updateSeries d.buckets key v series⟩ key =
      applyObservation d.buckets (Histogram.lookup ⟨d, series⟩ key) v := by
  simp only [Histogram.lookup, find_updateSeries_self]

/-- Every other series is untouched by an update. -/
theorem lookup_updateSeries_other (d : Descriptor) (key other : Labels) (v : ℚ)
    (series : SeriesMap) (hne : other ≠ key) :
    Histogram.lookup ⟨d, updateSeries d.buckets key v series⟩ other =
      Histogram.lookup ⟨d, series⟩ other := by
  simp only [Histogram.lookup, find_updateSeries_other _ _ _ _ _ hne]

theorem lookup_length (d : Descriptor) (series : SeriesMap) (key : Labels)
    (hwf : SeriesMap.WellFormed d.buckets series) :
    (Histogram.lookup ⟨d, series⟩ key).buckets.length = d.buckets.length := by
  unfold Histogram.lookup
  split
  · next p hp => exact hwf p (List.mem_of_find?_eq_some hp)
  · simp [zeroState]

theorem mem_zipWith_observe (v : ℚ) (bounds : List ℚ) (cs : List Nat) (x : Nat)
    (hx : x ∈ List.zipWith (fun b c => if v ≤ b then c + 1 else c) bounds cs) :
    ∃ b ∈ bounds, ∃ c ∈ cs, x = if v ≤ b then c + 1 else c := by
  induction bounds generalizing cs with
  | nil => simp at hx
  | cons b bs ih =>
    cases cs with
    | nil => simp at hx
    | cons c rest =>
      simp only [List.zipWith_cons_cons, List.mem_cons] at hx
      rcases hx with hx | hx
      · exact ⟨b, List.mem_cons_self _ _, c, List.mem_cons_self _ _, hx⟩
      · obtain ⟨b2, hb2, c2, hc2, h⟩ := ih rest hx
        exact ⟨b2, List.mem_cons_of_mem _ hb2, c2, List.mem_cons_of_mem _ hc2, h⟩

/-- Incrementing the counters of all bounds at or above a value keeps ascending
counters ascending, because the bounds ascend. -/
theorem pairwise_zipWith_observe (v : ℚ) (bounds : List ℚ) (cs : List Nat)
    (hb : bounds.Pairwise (· ≤ ·)) (hc : cs.Pairwise (· ≤ ·)) :
    (List.zipWith (fun b c => if v ≤ b then c + 1 else c) bounds cs).Pairwise (· ≤ ·) := by
  induction bounds generalizing cs with
  | nil => simp
  | cons b bs ih =>
    cases cs with
    | nil => simp
    | cons c rest =>
      rw [List.pairwise_cons] at hb hc
      simp only [List.zipWith_cons_cons, List.pairwise_cons]
      refine ⟨?_, ih rest hb.2 hc.2⟩
      intro x hx
      obtain ⟨b2, hb2, c2, hc2, rfl⟩ := mem_zipWith_observe v bs rest x hx
      have h1 : b ≤ b2 := hb.1 b2 hb2
      have h2 : c ≤ c2 := hc.1 c2 hc2
      by_cases hv : v ≤ b
      · have hv2 : v ≤ b2 := le_trans hv h1
        simp only [hv, hv2, if_true]
        omega
      · simp only [hv, if_false]
        split <;> omega

theorem cumulative_zeroState (bounds : List ℚ) : (zeroState bounds).Cumulative bounds := by
  refine ⟨by simp [zeroState], ?_, ?_⟩
  · simp only [zeroState, List.pairwise_map]
    exact List.pairwise_of_forall (fun _ _ => le_refl 0)
  · intro c hc
    simp only [zeroState, List.mem_map] at hc
    obtain ⟨_, _, rfl⟩ := hc
    exact Nat.zero_le _

theorem cumulative_applyObservation (bounds : List ℚ) (s : SeriesState) (v : ℚ)
    (hb : bounds.Pairwise (· ≤ ·)) (hs : s.Cumulative bounds) :
    (applyObservation bounds s v).Cumulative bounds := by
  obtain ⟨hlen, hpw, hle⟩ := hs
  refine ⟨?_, pairwise_zipWith_observe v bounds s.buckets hb hpw, ?_⟩
  · simp [applyObservation, List.length_zipWith, hlen]
  · intro x hx
    obtain ⟨b, _, c, hc, rfl⟩ := mem_zipWith_observe v bounds s.buckets x hx
    have := hle c hc
    simp only [applyObservation]
    split <;> omega

theorem cumulative_updateSeries (bounds : List ℚ) (key : Labels) (v : ℚ) (series : SeriesMap)
    (hb : bounds.Pairwise (· ≤ ·)) (hs : ∀ p ∈ series, p.2.Cumulative bounds) :
    ∀ p ∈ updateSeries bounds key v series, p.2.Cumulative bounds := by
  induction series with
  | nil =>
    intro p hp
    simp only [updateSeries, List.mem_singleton] at hp
    subst hp
    exact cumulative_applyObservation bounds _ v hb (cumulative_zeroState bounds)
  | cons q rest ih =>
    obtain ⟨k, s⟩ := q
    have hq := hs (k, s) (List.mem_cons_self _ _)
    have hrest : ∀ p ∈ rest, p.2.Cumulative bounds :=
      fun p hp => hs p (List.mem_cons_of_mem _ hp)
    intro p hp
    by_cases hk : k = key
    · simp only [updateSeries, hk, if_true, List.mem_cons] at hp
      rcases hp with hp | hp
      · subst hp
        exact cumulative_applyObservation bounds s v hb hq
      · exact hrest p hp
    · simp only [updateSeries, hk, if_false, List.mem_cons] at hp
      rcases hp with hp | hp
      · subst hp
        exact hq
      · exact ih hrest p hp

theorem buckets_ascending : httpRequestDurationConfig.buckets.Pairwise (· < ·) := by
  simp only [httpRequestDurationConfig, List.pairwise_cons]
  norm_num

theorem buckets_nondecreasing : httpRequestDurationConfig.buckets.Pairwise (· ≤ ·) :=
  buckets_ascending.imp le_of_lt

/-- Every series of every histogram reachable by serving requests satisfies the
series invariant. -/
theorem serve_cumulative (reqs : List (Env × Request)) (series : SeriesMap)
    (hs : ∀ p ∈ series, p.2.Cumulative httpRequestDurationConfig.buckets) :
    ∀ p ∈ (serve ⟨httpRequestDurationConfig, series⟩ reqs).series,
      p.2.Cumulative httpRequestDurationConfig.buckets := by
  induction reqs generalizing series with
  | nil => simpa [serve] using hs
  | cons r rest ih =>
    obtain ⟨env, req⟩ := r
    simp only [serve, handle_histogram]
    exact ih _ (cumulative_updateSeries _ _ _ series buckets_nondecreasing hs)

/-- The bounds and the counts of the bucket lines of a series that holds one
counter per bound. -/
theorem bucketLines_columns (bounds : List ℚ) (s : SeriesState)
    (hlen : s.buckets.length = bounds.length) :
    (bucketLines bounds s).map Prod.fst = bounds.map (fun b : ℚ => (b : WithTop ℚ)) ++ [⊤] ∧
      (bucketLines bounds s).map Prod.snd = s.buckets ++ [s.count] := by
  simp only [bucketLines, List.map_append, List.map_map, List.map_cons, List.map_nil]
  constructor
  · congr 1
    have : (Prod.fst ∘ fun p : ℚ × Nat => ((p.1 : WithTop ℚ), p.2)) =
        (fun b : ℚ => (b : WithTop ℚ)) ∘ Prod.fst := rfl
    rw [this, ← List.map_map, List.map_fst_zip _ _ (le_of_eq hlen.symm)]
  · congr 1
    have : (Prod.snd ∘ fun p : ℚ × Nat => ((p.1 : WithTop ℚ), p.2)) = Prod.snd := rfl
    rw [this, List.map_snd_zip _ _ (le_of_eq hlen)]

/-- On a fresh response the status code after the synchronous body is 200 on
both branches, so the request is recorded under `requestKey`. -/
theorem seriesKey_fresh (env : Env) (req : Request) (h : Histogram) :
    (handlerSync env req freshResponse h).res.statusCode = 200 ∧
      endLabels req (handlerSync env req freshResponse h).res =
        [("method", .str req.method), ("route", .str req.url), ("code", .num 200)] ∧
      seriesKey (endLabels req (handlerSync env req freshResponse h).res) = requestKey req := by
  have hstatus : (handlerSync env req freshResponse h).res.statusCode = 200 := by
    rw [(handlerSync_res env req freshResponse h).1]
    by_cases hurl : req.url = "/metrics" <;> simp only [hurl, if_true, if_false] <;> rfl
  refine ⟨hstatus, by simp only [endLabels, hstatus], ?_⟩
  rw [seriesKey_endLabels, hstatus]
  rfl

theorem handle_histogram_fresh (env : Env) (req : Request) (series : SeriesMap) :
    (handle env req freshResponse ⟨httpRequestDurationConfig, series⟩).histogram =
      ⟨httpRequestDurationConfig,
        updateSeries httpRequestDurationConfig.buckets (requestKey req)
          ((Timer.start env.tStart).elapsed env.tStop) series⟩ := by
  rw [handle_histogram, (seriesKey_fresh env req _).2.2]

theorem keys_updateSeries (bounds : List ℚ) (key : Labels) (v : ℚ) (series : SeriesMap) :
    (updateSeries bounds key v series).map Prod.fst =
      if key ∈ series.map Prod.fst then series.map Prod.fst
      else series.map Prod.fst ++ [key] := by
  induction series with
  | nil => simp [updateSeries]
  | cons p rest ih =>
    obtain ⟨k, s⟩ := p
    by_cases hk : k = key
    · simp [updateSeries, hk]
    · have hk2 : ¬ key = k := fun h => hk h.symm
      by_cases hmem : key ∈ rest.map Prod.fst
      · rw [if_pos hmem] at ih
        have : key ∈ ((k, s) :: rest).map Prod.fst := by
          simp only [List.map_cons, List.mem_cons]; exact Or.inr hmem
        rw [if_pos this]
        simp [updateSeries, hk, ih]
      · rw [if_neg hmem] at ih
        have : ¬ key ∈ ((k, s) :: rest).map Prod.fst := by
          simp only [List.map_cons, List.mem_cons, not_or]; exact ⟨hk2, hmem⟩
        rw [if_neg this]
        simp [updateSeries, hk, ih]

/-- Requests recorded under pairwise different keys, none of them present yet,
each create a series of their own, in order. -/
theorem serve_keys (reqs : List (Env × Request)) (series : SeriesMap)
    (hnodup : (reqs.map (fun r => requestKey r.2)).Nodup)
    (hfresh : ∀ r ∈ reqs, requestKey r.2 ∉ series.map Prod.fst) :
    (serve ⟨httpRequestDurationConfig, series⟩ reqs).series.map Prod.fst =
      series.map Prod.fst ++ reqs.map (fun r => requestKey r.2) := by
  induction reqs generalizing series with
  | nil => simp [serve]
  | cons r rest ih =>
    obtain ⟨env, req⟩ := r
    rw [List.map_cons, List.nodup_cons] at hnodup
    have hnew : requestKey req ∉ series.map Prod.fst := hfresh (env, req) (List.mem_cons_self _ _)
    have hkeys := keys_updateSeries httpRequestDurationConfig.buckets (requestKey req)
      ((Timer.start env.tStart).elapsed env.tStop) series
    rw [if_neg hnew] at hkeys
    simp only [serve, handle_histogram_fresh]
    rw [ih _ hnodup.2, hkeys]
    · simp
    · intro r hr
      rw [hkeys, List.mem_append, not_or]
      refine ⟨hfresh r (List.mem_cons_of_mem _ hr), ?_⟩
      simp only [List.mem_singleton]
      intro heq
      exact hnodup.1 (heq ▸ List.mem_map_of_mem (fun r => requestKey r.2) hr)

theorem queryRequests_keys_nodup (n : Nat) :
    ((queryRequests n).map (fun r => requestKey r.2)).Nodup := by
  simp only [queryRequests, List.map_map]
  refine List.Nodup.map ?_ (List.nodup_range n)
  intro i j hij
  simp only [Function.comp, requestKey, List.cons.injEq, Prod.mk.injEq, LabelValue.str.injEq,
    true_and, and_true] at hij
  have := congrArg (fun u : String => u.data.length) hij
  simpa using this

/-! ## The responses -/

/-- C1: a request whose URL is not exactly `/metrics` is answered with status
200, content type `text/plain` and the body `Hello from Kubernetes!`, and no
continuation stays pending; the response is the same for every other such
request, whatever its method, URL, headers, clock or histogram state. -/
theorem greeting_response (env : Env) (req : Request) (res : ServerResponse) (h : Histogram)
    (hurl : req.url ≠ "/metrics") :
    (handle env req res h).res.statusCode = 200 ∧
      (handle env req res h).res.getHeader "Content-Type" = some "text/plain" ∧
      (handle env req res h).res.body = some "Hello from Kubernetes!" ∧
      (handle env req res h).pendingThen = false ∧
      ∀ (env2 : Env) (req2 : Request) (h2 : Histogram), req2.url ≠ "/metrics" →
        (handle env2 req2 res h2).res = (handle env req res h).res := by
  have key : ∀ (e : Env) (r : Request) (g : Histogram), r.url ≠ "/metrics" →
      (handle e r res g).res =
        ((res.setStatusCode 200).setHeader "Content-Type" "text/plain").endWith
          "Hello from Kubernetes!" ∧ (handle e r res g).pendingThen = false := by
    intro e r g hr
    obtain ⟨h1, h2⟩ := handlerSync_res e r res g
    simp only [hr, if_false, decide_False] at h1 h2
    simp [handle, settle, h1, h2]
  obtain ⟨h1, h2⟩ := key env req h hurl
  refine ⟨?_, ?_, ?_, h2, ?_⟩
  · rw [h1]; rfl
  · rw [h1]; exact getHeader_setHeader _ _ _
  · rw [h1]; rfl
  · intro env2 req2 h2 hr2
    rw [h1, (key env2 req2 h2 hr2).1]

/-- The greeting at a concrete request, `POST /healthz?x=1`. -/
theorem greeting_response_witness :
    greetingRequest.url ≠ "/metrics" ∧
      (handle sampleEnv greetingRequest freshResponse
        httpRequestDurationMicroseconds).res.statusCode = 200 ∧
      (handle sampleEnv greetingRequest freshResponse
        httpRequestDurationMicroseconds).res.getHeader "Content-Type" = some "text/plain" ∧
      (handle sampleEnv greetingRequest freshResponse
        httpRequestDurationMicroseconds).res.body = some "Hello from Kubernetes!" :=
  ⟨by decide,
    (greeting_response sampleEnv greetingRequest freshResponse httpRequestDurationMicroseconds
      (by decide)).1,
    (greeting_response sampleEnv greetingRequest freshResponse httpRequestDurationMicroseconds
      (by decide)).2.1,
    (greeting_response sampleEnv greetingRequest freshResponse httpRequestDurationMicroseconds
      (by decide)).2.2.1⟩

/-- C2: a request to exactly `/metrics` whose render resolves with text `d` gets
the registry's exposition content type as `Content-Type`, the body `d`, and
the status 200 that a fresh response carries by default. -/
theorem metrics_response (env : Env) (req : Request) (h : Histogram) (d : String)
    (hurl : req.url = "/metrics") (hd : env.render = .resolved d) :
    (handle env req freshResponse h).res.getHeader "Content-Type" = some env.contentType ∧
      (handle env req freshResponse h).res.body = some d ∧
      (handle env req freshResponse h).res.statusCode = 200 := by
  obtain ⟨h1, h2⟩ := handlerSync_res env req freshResponse h
  simp only [hurl, if_true, decide_True] at h1 h2
  have hres : (handle env req freshResponse h).res =
      (freshResponse.setHeader "Content-Type" env.contentType).endWith d := by
    simp [handle, settle, h1, h2, hd]
  rw [hres]
  exact ⟨getHeader_setHeader _ _ _, rfl, rfl⟩

/-- A concrete scrape whose render resolves with a one-line exposition. -/
theorem metrics_response_witness :
    scrapeRequest.url = "/metrics" ∧ sampleEnv.render = .resolved "up 1" ∧
      (handle sampleEnv scrapeRequest freshResponse
        httpRequestDurationMicroseconds).res.getHeader "Content-Type" =
          some sampleEnv.contentType ∧
      (handle sampleEnv scrapeRequest freshResponse
        httpRequestDurationMicroseconds).res.body = some "up 1" ∧
      (handle sampleEnv scrapeRequest freshResponse
        httpRequestDurationMicroseconds).res.statusCode = 200 :=
  ⟨rfl, rfl,
    metrics_response sampleEnv scrapeRequest httpRequestDurationMicroseconds "up 1" rfl rfl⟩

/-- C3, as the code behaves: when the render of a request to `/metrics` rejects,
the handler has attached no rejection handler. The rejection stays unhandled
(it is the last step of the run), the response is never ended (no body, no
`end` step), its status stays at the default 200, and only the `Content-Type`
header has been set: the headers of the response are exactly that one. -/
theorem metrics_rejection_unhandled (env : Env) (req : Request) (h : Histogram)
    (reason : String) (hurl : req.url = "/metrics") (hd : env.render = .rejected reason) :
    (handle env req freshResponse h).res.body = none ∧
      (handle env req freshResponse h).res.statusCode = 200 ∧
      (handle env req freshResponse h).res.getHeader "Content-Type" = some env.contentType ∧
      (handle env req freshResponse h).res.headers = [("Content-Type", env.contentType)] ∧
      (handle env req freshResponse h).trace.getLast? = some (.unhandledRejection reason) ∧
      (handle env req freshResponse h).trace.all (fun e => !e.isResponseEnd) = true := by
  obtain ⟨h1, h2⟩ := handlerSync_res env req freshResponse h
  simp only [hurl, if_true, decide_True] at h1 h2
  have hres : (handle env req freshResponse h).res =
      freshResponse.setHeader "Content-Type" env.contentType := by
    simp [handle, settle, h1, h2, hd]
  have htr : (handle env req freshResponse h).trace =
      (handlerSync env req freshResponse h).trace ++ [.unhandledRejection reason] := by
    simp [handle, settle, h2, hd]
  refine ⟨by rw [hres]; rfl, by rw [hres]; rfl, by rw [hres]; exact getHeader_setHeader _ _ _,
    by rw [hres]; simp [ServerResponse.setHeader, freshResponse], by rw [htr]; simp, ?_⟩
  rw [htr]
  unfold handlerSync
  simp only [hurl, if_true]
  split <;> simp [Event.isResponseEnd]

/-- A concrete scrape whose render rejects. -/
theorem metrics_rejection_unhandled_witness :
    scrapeRequest.url = "/metrics" ∧ failingEnv.render = .rejected "render failed" ∧
      (handle failingEnv scrapeRequest freshResponse
        httpRequestDurationMicroseconds).res.body = none ∧
      (handle failingEnv scrapeRequest freshResponse
        httpRequestDurationMicroseconds).res.statusCode = 200 ∧
      (handle failingEnv scrapeRequest freshResponse
        httpRequestDurationMicroseconds).res.headers =
          [("Content-Type", failingEnv.contentType)] :=
  ⟨rfl, rfl,
    (metrics_rejection_unhandled failingEnv scrapeRequest httpRequestDurationMicroseconds
      "render failed" rfl rfl).1,
    (metrics_rejection_unhandled failingEnv scrapeRequest httpRequestDurationMicroseconds
      "render failed" rfl rfl).2.1,
    (metrics_rejection_unhandled failingEnv scrapeRequest httpRequestDurationMicroseconds
      "render failed" rfl rfl).2.2.2.1⟩

/-- C3 as stated fails: on a concrete scrape whose render rejects, the response
is not ended with an empty body and its status is not a server error. -/
theorem metrics_rejection_counterexample :
    ¬ ((handle failingEnv scrapeRequest freshResponse
          httpRequestDurationMicroseconds).res.body = some "" ∧
        500 ≤ (handle failingEnv scrapeRequest freshResponse
          httpRequestDurationMicroseconds).res.statusCode ∧
        (handle failingEnv scrapeRequest freshResponse
          httpRequestDurationMicroseconds).res.statusCode ≤ 599) := by
  obtain ⟨h1, h2⟩ :=
    handlerSync_res failingEnv scrapeRequest freshResponse httpRequestDurationMicroseconds
  have hres : (handle failingEnv scrapeRequest freshResponse
      httpRequestDurationMicroseconds).res =
        freshResponse.setHeader "Content-Type" failingEnv.contentType := by
    have hurl : scrapeRequest.url = "/metrics" := rfl
    have hd : failingEnv.render = .rejected "render failed" := rfl
    simp only [hurl, if_true, decide_True] at h1 h2
    simp [handle, settle, h1, h2, hd]
  rw [hres]
  simp [ServerResponse.setHeader, freshResponse]

/-! ## One timer and one observation per request -/

/-- C4: on either branch the first step of the handler starts a timer, the run
starts no other timer, and it stops that same timer exactly once, without an
exception; the histogram then holds exactly one more observation, and after
`n` requests handled from start-up it holds `n` observations. -/
theorem one_timer_per_request (env : Env) (req : Request) (res : ServerResponse)
    (series : SeriesMap) :
    (handle env req res ⟨httpRequestDurationConfig, series⟩).trace.head? =
        some (.timerStart (Timer.start env.tStart)) ∧
      (handle env req res ⟨httpRequestDurationConfig, series⟩).trace.filter Event.isTimerStart =
        [.timerStart (Timer.start env.tStart)] ∧
      (handle env req res ⟨httpRequestDurationConfig, series⟩).trace.filter Event.isTimerStop =
        [.timerStop (Timer.start env.tStart)
          (endLabels req (handle env req res ⟨httpRequestDurationConfig, series⟩).res)] ∧
      (handle env req res ⟨httpRequestDurationConfig, series⟩).thrown = none ∧
      (handle env req res ⟨httpRequestDurationConfig, series⟩).histogram.totalCount =
        (Histogram.totalCount ⟨httpRequestDurationConfig, series⟩) + 1 ∧
      ∀ reqs : List (Env × Request),
        (serve httpRequestDurationMicroseconds reqs).totalCount = reqs.length := by
  obtain ⟨_, hthrown, htrace⟩ := handlerSync_histogram env req res series
  obtain ⟨_, hfthrown, hstatus, extra, hextra, hall⟩ :=
    settle_frame env (handlerSync env req res ⟨httpRequestDurationConfig, series⟩)
  have hlabels : endLabels req (handle env req res ⟨httpRequestDurationConfig, series⟩).res =
      endLabels req (handlerSync env req res ⟨httpRequestDurationConfig, series⟩).res := by
    simp only [endLabels, handle, hstatus]
  have hstart : extra.filter Event.isTimerStart = [] := by
    rw [List.filter_eq_nil_iff]
    intro e he
    have := List.all_eq_true.mp hall e he
    simp only [Bool.and_eq_true, Bool.not_eq_true'] at this
    simp [this.1]
  have hstop : extra.filter Event.isTimerStop = [] := by
    rw [List.filter_eq_nil_iff]
    intro e he
    have := List.all_eq_true.mp hall e he
    simp only [Bool.and_eq_true, Bool.not_eq_true'] at this
    simp [this.2]
  refine ⟨?_, ?_, ?_, ?_, ?_, ?_⟩
  · simp only [handle, hextra, htrace]; rfl
  · simp only [handle, hextra, htrace, List.filter_append, hstart]
    by_cases hurl : req.url = "/metrics" <;>
      simp [hurl, List.filter, Event.isTimerStart]
  · rw [hlabels]
    simp only [handle, hextra, htrace, List.filter_append, hstop]
    by_cases hurl : req.url = "/metrics" <;>
      simp [hurl, List.filter, Event.isTimerStop]
  · simp only [handle, hfthrown, hthrown]
  · rw [handle_histogram]
    simp only [Histogram.totalCount, sum_count_updateSeries]
  · intro reqs
    have := (serve_totalCount reqs []).2
    simpa [httpRequestDurationMicroseconds, Histogram.totalCount] using this

/-! ## The label object -/

/-- C5: the run stops its timer with a label object whose keys are exactly the
descriptor's label names `method`, `route`, `code`, holding the request's
method, the request's URL and the status code of the response; the label
check of `observe` accepts it, so no value is rejected with
`LabelCardinalityMismatch` and the handler throws nothing. -/
theorem end_labels_match (env : Env) (req : Request) (res : ServerResponse)
    (series : SeriesMap) :
    ∃ labels : Labels,
      Event.timerStop (Timer.start env.tStart) labels ∈
        (handle env req res ⟨httpRequestDurationConfig, series⟩).trace ∧
      labels.map Prod.fst = httpRequestDurationConfig.labelNames ∧
      labels.map Prod.snd = [.str req.method, .str req.url,
        .num (handle env req res ⟨httpRequestDurationConfig, series⟩).res.statusCode] ∧
      labelsMatch httpRequestDurationConfig.labelNames labels = true ∧
      (∀ v : ℚ, Histogram.observe ⟨httpRequestDurationConfig, series⟩ labels v ≠
        .error .LabelCardinalityMismatch) ∧
      (handle env req res ⟨httpRequestDurationConfig, series⟩).thrown = none := by
  obtain ⟨_, hthrown, htrace⟩ := handlerSync_histogram env req res series
  obtain ⟨_, hfthrown, hstatus, extra, hextra, _⟩ :=
    settle_frame env (handlerSync env req res ⟨httpRequestDurationConfig, series⟩)
  refine ⟨endLabels req (handlerSync env req res ⟨httpRequestDurationConfig, series⟩).res,
    ?_, ?_, ?_, labelsMatch_endLabels _ _, ?_, ?_⟩
  · simp only [handle, hextra, htrace]
    simp
  · simp [endLabels, httpRequestDurationConfig]
  · simp [endLabels, handle, hstatus]
  · intro v
    simp [Histogram.observe, labelsMatch_endLabels]
  · simp only [handle, hfthrown, hthrown]

/-! ## The effect of one observation -/

/-- C6: with `v` the elapsed time measured for the request, handling it
increments by one every bucket of the request's series whose bound is at
least `v`, leaves every bucket whose bound is below `v` as it was, keeps one
counter per configured bound, adds one to the series count and `v` to the
series sum, and leaves the series of every other label tuple unchanged. -/
theorem observation_updates_series (env : Env) (req : Request) (res : ServerResponse)
    (series : SeriesMap)
    (hwf : SeriesMap.WellFormed httpRequestDurationConfig.buckets series) :
    (∀ (i : Nat) (b : ℚ) (c : Nat), httpRequestDurationConfig.buckets[i]? = some b →
        (Histogram.lookup ⟨httpRequestDurationConfig, series⟩
          (seriesKey (endLabels req
            (handle env req res ⟨httpRequestDurationConfig, series⟩).res))).buckets[i]? = some c →
        ((Timer.start env.tStart).elapsed env.tStop ≤ b →
          ((handle env req res ⟨httpRequestDurationConfig, series⟩).histogram.lookup
            (seriesKey (endLabels req
              (handle env req res ⟨httpRequestDurationConfig, series⟩).res))).buckets[i]? =
            some (c + 1)) ∧
        (b < (Timer.start env.tStart).elapsed env.tStop →
          ((handle env req res ⟨httpRequestDurationConfig, series⟩).histogram.lookup
            (seriesKey (endLabels req
              (handle env req res ⟨httpRequestDurationConfig, series⟩).res))).buckets[i]? =
            some c)) ∧
      (Histogram.lookup ⟨httpRequestDurationConfig, series⟩
        (seriesKey (endLabels req
          (handle env req res ⟨httpRequestDurationConfig, series⟩).res))).buckets.length = 9 ∧
      ((handle env req res ⟨httpRequestDurationConfig, series⟩).histogram.lookup
        (seriesKey (endLabels req
          (handle env req res ⟨httpRequestDurationConfig, series⟩).res))).buckets.length = 9 ∧
      ((handle env req res ⟨httpRequestDurationConfig, series⟩).histogram.lookup
        (seriesKey (endLabels req
          (handle env req res ⟨httpRequestDurationConfig, series⟩).res))).count =
        (Histogram.lookup ⟨httpRequestDurationConfig, series⟩
          (seriesKey (endLabels req
            (handle env req res ⟨httpRequestDurationConfig, series⟩).res))).count + 1 ∧
      ((handle env req res ⟨httpRequestDurationConfig, series⟩).histogram.lookup
        (seriesKey (endLabels req
          (handle env req res ⟨httpRequestDurationConfig, series⟩).res))).sum =
        (Histogram.lookup ⟨httpRequestDurationConfig, series⟩
          (seriesKey (endLabels req
            (handle env req res ⟨httpRequestDurationConfig, series⟩).res))).sum +
          (Timer.start env.tStart).elapsed env.tStop ∧
      ∀ other : Labels,
        other ≠ seriesKey (endLabels req
          (handle env req res ⟨httpRequestDurationConfig, series⟩).res) →
        (handle env req res ⟨httpRequestDurationConfig, series⟩).histogram.lookup other =
          Histogram.lookup ⟨httpRequestDurationConfig, series⟩ other := by
  have hlabels : endLabels req (handle env req res ⟨httpRequestDurationConfig, series⟩).res =
      endLabels req (handlerSync env req res ⟨httpRequestDurationConfig, series⟩).res := by
    simp only [endLabels, handle, (settle_frame env _).2.2.1]
  rw [hlabels, handle_histogram]
  generalize seriesKey (endLabels req
    (handlerSync env req res ⟨httpRequestDurationConfig, series⟩).res) = key
  generalize (Timer.start env.tStart).elapsed env.tStop = v
  have hlen := lookup_length httpRequestDurationConfig series key hwf
  have hnine : httpRequestDurationConfig.buckets.length = 9 := rfl
  rw [lookup_updateSeries_self]
  refine ⟨?_, by rw [hlen, hnine], ?_, rfl, rfl, ?_⟩
  · intro i b c hb hc
    simp only [applyObservation, List.getElem?_zipWith, hb, hc]
    constructor
    · intro hv; simp [hv]
    · intro hv; simp [not_le.mpr hv]
  · simp only [applyObservation, List.length_zipWith, hlen, hnine]
    rfl
  · intro other hne
    exact lookup_updateSeries_other _ _ _ _ _ hne

/-- One more request recorded on a histogram that already holds `sampleSeries`. -/
theorem observation_updates_series_witness :
    SeriesMap.WellFormed httpRequestDurationConfig.buckets [sampleSeries] ∧
      ((handle sampleEnv greetingRequest freshResponse
          ⟨httpRequestDurationConfig, [sampleSeries]⟩).histogram.lookup
        (seriesKey (endLabels greetingRequest
          (handle sampleEnv greetingRequest freshResponse
            ⟨httpRequestDurationConfig, [sampleSeries]⟩).res))).count =
        (Histogram.lookup ⟨httpRequestDurationConfig, [sampleSeries]⟩
          (seriesKey (endLabels greetingRequest
            (handle sampleEnv greetingRequest freshResponse
              ⟨httpRequestDurationConfig, [sampleSeries]⟩).res))).count + 1 :=
  ⟨by intro p hp; rw [List.mem_singleton] at hp; subst hp; rfl,
    (observation_updates_series sampleEnv greetingRequest freshResponse [sampleSeries]
      (by intro p hp; rw [List.mem_singleton] at hp; subst hp; rfl)).2.2.2.1⟩

/-! ## The descriptor -/

/-- C7: the descriptor the program registers has the non-empty name
`http_request_duration_seconds`, the pairwise distinct label names `method`,
`route`, `code`, and the buckets 0.1, 0.3, 0.5, 0.7, 1, 3, 5, 7, 10, a
non-empty strictly increasing sequence of positive bounds; it passes the
descriptor check, so registering it in any registry does not fail with
`InvalidDescriptor`. -/
theorem descriptor_valid :
    httpRequestDurationConfig.name = "http_request_duration_seconds" ∧
      httpRequestDurationConfig.name ≠ "" ∧
      httpRequestDurationConfig.labelNames = ["method", "route", "code"] ∧
      httpRequestDurationConfig.labelNames.Nodup ∧
      httpRequestDurationConfig.buckets = [1/10, 3/10, 1/2, 7/10, 1, 3, 5, 7, 10] ∧
      httpRequestDurationConfig.buckets ≠ [] ∧
      httpRequestDurationConfig.buckets.Pairwise (· < ·) ∧
      (∀ b ∈ httpRequestDurationConfig.buckets, 0 < b) ∧
      validDescriptor httpRequestDurationConfig = true ∧
      ∀ reg : Registry, register reg httpRequestDurationConfig ≠ .error .InvalidDescriptor := by
  have hname : ("http_request_duration_seconds" : String) ≠ "" := by decide
  have hvalid : validDescriptor httpRequestDurationConfig = true := by
    simp only [validDescriptor, httpRequestDurationConfig, strictlyIncreasing, List.all_cons,
      List.all_nil, List.isEmpty_cons]
    norm_num [hname]
  refine ⟨rfl, hname, rfl, by decide, rfl, by simp [httpRequestDurationConfig],
    buckets_ascending, ?_, hvalid, ?_⟩
  · intro b hb
    simp only [httpRequestDurationConfig, List.mem_cons, List.mem_singleton,
      List.not_mem_nil, or_false] at hb
    rcases hb with rfl | rfl | rfl | rfl | rfl | rfl | rfl | rfl | rfl <;> norm_num
  · intro reg
    simp only [register, hvalid, if_true]
    split
    · split <;> simp
    · simp

/-! ## Cumulative buckets -/

/-- C8: after any finite sequence of handled requests, the bucket lines of every
series of the histogram list the bounds 0.1, 0.3, 0.5, 0.7, 1, 3, 5, 7, 10 and
`+Inf` in strictly ascending order with `+Inf` last, their counts are
non-decreasing along that order, and the last finite bucket is at most the
series count carried by the `+Inf` line. -/
theorem bucket_lines_monotone (reqs : List (Env × Request)) (p : Labels × SeriesState)
    (hp : p ∈ (serve httpRequestDurationMicroseconds reqs).series) :
    (bucketLines httpRequestDurationConfig.buckets p.2).map Prod.fst =
        [((1/10 : ℚ) : WithTop ℚ), ((3/10 : ℚ) : WithTop ℚ), ((1/2 : ℚ) : WithTop ℚ),
          ((7/10 : ℚ) : WithTop ℚ), ((1 : ℚ) : WithTop ℚ), ((3 : ℚ) : WithTop ℚ),
          ((5 : ℚ) : WithTop ℚ), ((7 : ℚ) : WithTop ℚ), ((10 : ℚ) : WithTop ℚ), ⊤] ∧
      ((bucketLines httpRequestDurationConfig.buckets p.2).map Prod.fst).Pairwise (· < ·) ∧
      ((bucketLines httpRequestDurationConfig.buckets p.2).map Prod.fst).getLast? = some ⊤ ∧
      (bucketLines httpRequestDurationConfig.buckets p.2).map Prod.snd =
        p.2.buckets ++ [p.2.count] ∧
      ((bucketLines httpRequestDurationConfig.buckets p.2).map Prod.snd).Pairwise (· ≤ ·) ∧
      p.2.buckets.Pairwise (· ≤ ·) ∧
      (∀ c ∈ p.2.buckets.getLast?, c ≤ p.2.count) := by
  have hinv : p.2.Cumulative httpRequestDurationConfig.buckets :=
    serve_cumulative reqs [] (by simp) p hp
  obtain ⟨hlen, hpw, hle⟩ := hinv
  obtain ⟨hfst, hsnd⟩ := bucketLines_columns httpRequestDurationConfig.buckets p.2 hlen
  have hasc : (httpRequestDurationConfig.buckets.map (fun b : ℚ => (b : WithTop ℚ)) ++
      [⊤]).Pairwise (· < ·) := by
    rw [List.pairwise_append]
    refine ⟨?_, List.pairwise_singleton _ _, ?_⟩
    · rw [List.pairwise_map]
      exact buckets_ascending.imp (fun h => WithTop.coe_lt_coe.mpr h)
    · intro a ha b hb
      simp only [List.mem_map] at ha
      obtain ⟨q, _, rfl⟩ := ha
      simp only [List.mem_singleton] at hb
      subst hb
      exact WithTop.coe_lt_top q
  refine ⟨?_, ?_, ?_, hsnd, ?_, hpw, ?_⟩
  · rw [hfst]; rfl
  · rw [hfst]; exact hasc
  · rw [hfst]; simp
  · rw [hsnd, List.pairwise_append]
    refine ⟨hpw, List.pairwise_singleton _ _, ?_⟩
    intro a ha b hb
    simp only [List.mem_singleton] at hb
    subst hb
    exact hle a ha
  · intro c hc
    exact hle c (List.mem_of_getLast?_eq_some hc)

/-- The bucket lines after one request that took two fifths of a second. -/
theorem bucket_lines_monotone_witness :
    sampleSeries ∈ (serve httpRequestDurationMicroseconds [(sampleEnv, greetingRequest)]).series ∧
      (bucketLines httpRequestDurationConfig.buckets sampleSeries.2).map Prod.snd =
        sampleSeries.2.buckets ++ [sampleSeries.2.count] ∧
      ((bucketLines httpRequestDurationConfig.buckets sampleSeries.2).map Prod.snd).Pairwise
        (· ≤ ·) := by
  have hmem : sampleSeries ∈
      (serve httpRequestDurationMicroseconds [(sampleEnv, greetingRequest)]).series := by
    simp only [serve, httpRequestDurationMicroseconds, handle_histogram_fresh]
    simp only [updateSeries, List.mem_singleton, sampleSeries, applyObservation, zeroState,
      httpRequestDurationConfig, Timer.elapsed, Timer.start, sampleEnv]
    norm_num
  exact ⟨hmem,
    (bucket_lines_monotone [(sampleEnv, greetingRequest)] sampleSeries hmem).2.2.2.1,
    (bucket_lines_monotone [(sampleEnv, greetingRequest)] sampleSeries hmem).2.2.2.2.1⟩

/-! ## A scrape is itself observed -/

/-- C9: on a request to `/metrics` whose render resolves with `d`, the
synchronous body of the handler already ends with the timer stop, carrying
route `/metrics` and code 200, while the response has no body yet and the
continuation is still pending; the histogram holds one more observation and
so differs from before; the continuation then only appends the end of the
response and leaves the histogram alone, and the recorded observation depends
on the two clock readings only, not on the render. -/
theorem scrape_recorded_before_answer (env : Env) (req : Request) (series : SeriesMap)
    (d : String) (hurl : req.url = "/metrics") (hd : env.render = .resolved d) :
    (handlerSync env req freshResponse ⟨httpRequestDurationConfig, series⟩).trace.getLast? =
        some (.timerStop (Timer.start env.tStart)
          [("method", .str req.method), ("route", .str "/metrics"), ("code", .num 200)]) ∧
      (handlerSync env req freshResponse ⟨httpRequestDurationConfig, series⟩).res.body = none ∧
      (handlerSync env req freshResponse ⟨httpRequestDurationConfig, series⟩).pendingThen
        = true ∧
      (handlerSync env req freshResponse ⟨httpRequestDurationConfig, series⟩).histogram.totalCount
        = (Histogram.totalCount ⟨httpRequestDurationConfig, series⟩) + 1 ∧
      (handlerSync env req freshResponse ⟨httpRequestDurationConfig, series⟩).histogram ≠
        ⟨httpRequestDurationConfig, series⟩ ∧
      (handle env req freshResponse ⟨httpRequestDurationConfig, series⟩).trace =
        (handlerSync env req freshResponse ⟨httpRequestDurationConfig, series⟩).trace ++
          [.responseEnd d] ∧
      (handle env req freshResponse ⟨httpRequestDurationConfig, series⟩).histogram =
        (handlerSync env req freshResponse ⟨httpRequestDurationConfig, series⟩).histogram ∧
      (handle env req freshResponse ⟨httpRequestDurationConfig, series⟩).res.body = some d ∧
      ∀ env2 : Env, env2.tStart = env.tStart → env2.tStop = env.tStop →
        (handle env2 req freshResponse ⟨httpRequestDurationConfig, series⟩).histogram =
          (handle env req freshResponse ⟨httpRequestDurationConfig, series⟩).histogram := by
  obtain ⟨hhist, _, htrace⟩ := handlerSync_histogram env req freshResponse series
  obtain ⟨hres, hpending⟩ :=
    handlerSync_res env req freshResponse ⟨httpRequestDurationConfig, series⟩
  obtain ⟨_, hlabels, _⟩ := seriesKey_fresh env req ⟨httpRequestDurationConfig, series⟩
  simp only [hurl, if_true, decide_True] at hres hpending
  have hcount :
      (handlerSync env req freshResponse ⟨httpRequestDurationConfig, series⟩).histogram.totalCount
        = (Histogram.totalCount ⟨httpRequestDurationConfig, series⟩) + 1 := by
    rw [hhist]
    simp only [Histogram.totalCount, sum_count_updateSeries]
  refine ⟨?_, ?_, hpending, hcount, ?_, ?_, (settle_frame env _).1, ?_, ?_⟩
  · rw [htrace, hlabels, hurl]
    simp
  · rw [hres]; rfl
  · intro heq
    rw [heq] at hcount
    omega
  · simp [handle, settle, hpending, hd]
  · simp [handle, settle, hpending, hd, ServerResponse.endWith]
  · intro env2 h1 h2
    rw [handle_histogram_fresh, handle_histogram_fresh, h1, h2]

/-- A concrete scrape: the timer stop closes the synchronous body, and the end of
the response follows it. -/
theorem scrape_recorded_before_answer_witness :
    scrapeRequest.url = "/metrics" ∧ sampleEnv.render = .resolved "up 1" ∧
      (handlerSync sampleEnv scrapeRequest freshResponse
          ⟨httpRequestDurationConfig, []⟩).trace.getLast? =
        some (.timerStop (Timer.start sampleEnv.tStart)
          [("method", .str scrapeRequest.method), ("route", .str "/metrics"),
            ("code", .num 200)]) ∧
      (handlerSync sampleEnv scrapeRequest freshResponse
        ⟨httpRequestDurationConfig, []⟩).res.body = none :=
  ⟨rfl, rfl,
    (scrape_recorded_before_answer sampleEnv scrapeRequest [] "up 1" rfl rfl).1,
    (scrape_recorded_before_answer sampleEnv scrapeRequest [] "up 1" rfl rfl).2.1⟩

/-! ## Unbounded label cardinality -/

/-- C10: the route label is the raw URL. Requests that differ in method or URL
are recorded under different series keys, whatever the status code; and for
every `n` the `n` requests `queryRequests n`, which differ only in their query
string, leave the histogram with `n` series under pairwise different keys. -/
theorem route_label_unnormalised :
    (∀ (r1 r2 : Request) (res1 res2 : ServerResponse),
        (r1.method, r1.url) ≠ (r2.method, r2.url) →
        seriesKey (endLabels r1 res1) ≠ seriesKey (endLabels r2 res2)) ∧
      ∀ n : Nat, (queryRequests n).length = n ∧
        (∀ r ∈ queryRequests n, r.2.method = "GET") ∧
        (serve httpRequestDurationMicroseconds (queryRequests n)).series.length = n ∧
        ((serve httpRequestDurationMicroseconds (queryRequests n)).series.map Prod.fst).Nodup := by
  constructor
  · intro r1 r2 res1 res2 hne heq
    rw [seriesKey_endLabels, seriesKey_endLabels] at heq
    simp only [List.cons.injEq, Prod.mk.injEq, LabelValue.str.injEq, true_and, and_true] at heq
    exact hne (Prod.ext heq.2.1 heq.2.2)
  · intro n
    have hkeys := serve_keys (queryRequests n) [] (queryRequests_keys_nodup n) (by simp)
    simp only [List.map_nil, List.nil_append] at hkeys
    have hlen : (queryRequests n).length = n := by simp [queryRequests]
    refine ⟨hlen, ?_, ?_, ?_⟩
    · intro r hr
      simp only [queryRequests, List.mem_map] at hr
      obtain ⟨i, _, rfl⟩ := hr
      rfl
    · have := congrArg List.length hkeys
      simpa [hlen, httpRequestDurationMicroseconds] using this
    · simp only [httpRequestDurationMicroseconds]
      rw [hkeys]
      exact queryRequests_keys_nodup n

/-- Two concrete requests that differ in method and URL get different keys. -/
theorem route_label_unnormalised_witness :
    (greetingRequest.method, greetingRequest.url) ≠ (scrapeRequest.method, scrapeRequest.url) ∧
      seriesKey (endLabels greetingRequest freshResponse) ≠
        seriesKey (endLabels scrapeRequest freshResponse) :=
  ⟨by decide,
    route_label_unnormalised.1 greetingRequest scrapeRequest freshResponse freshResponse
      (by decide)⟩

end K8sDemo
